import Mathlib

/-!
Verification development for the job-scraping program in `main.py`.

The program is embedded shallowly:

* Python strings are `PyStr := List Nat` (Unicode code points); `pyStr`
  converts a Lean string literal.
* Python's `str.lower` / `str.title` are modelled character-wise for the
  alphabets the program actually handles (ASCII letters and the Russian
  Cyrillic block used by the city names) — on every other code point they
  are the identity, exactly as in Python for uncased characters.
* `re.search(tag, text, flags=re.I)` for the plain-word patterns the
  program passes is case-insensitive substring search.
* A raised Python exception is modelled by `none` / an `Option`-valued
  result: `none` means the exception escapes the modelled function.
* The network and the two sites' DOM are an explicit environment `Env`:
  each results page is either a fetch failure (`none`, `requests.get` /
  `driver.get` raised) or the ordered list of listing links its markup
  yields (a non-success HTTP status page simply yields zero matches);
  each detail page is either a fetch failure or a record of the optional
  DOM fields the extraction code queries.
-/

/-- A Python string, as its list of Unicode code points. -/
abbrev PyStr := List Nat

/-- Code points of a Lean string literal. -/
def pyStr (s : String) : PyStr := s.data.map Char.toNat

/-- Python `str.lower`, character-wise, for ASCII and the Cyrillic block
(`А`..`Я` are 1040..1071, `а`..`я` are 1072..1103, `Ё` is 1025, `ё` is 1105);
identity elsewhere. -/
def pyCharLower (c : Nat) : Nat :=
  if 65 ≤ c ∧ c ≤ 90 then c + 32
  else if 1040 ≤ c ∧ c ≤ 1071 then c + 32
  else if c = 1025 then c + 80
  else c

/-- Python `str.upper` on one character, for ASCII and Cyrillic; identity
elsewhere.  `str.title` uses it on the first character of each word. -/
def pyCharUpper (c : Nat) : Nat :=
  if 97 ≤ c ∧ c ≤ 122 then c - 32
  else if 1072 ≤ c ∧ c ≤ 1103 then c - 32
  else if c = 1105 then c - 80
  else c

/-- Whether a character is cased (a letter) for the purposes of
`str.title`'s word boundaries, over the same alphabets. -/
def pyCharIsCased (c : Nat) : Bool :=
  decide ((65 ≤ c ∧ c ≤ 90) ∨ (97 ≤ c ∧ c ≤ 122) ∨
    (1040 ≤ c ∧ c ≤ 1103) ∨ c = 1025 ∨ c = 1105)

/-- Python `str.lower`. -/
def pyLower (s : PyStr) : PyStr := s.map pyCharLower

/-- Worker for `str.title`: the flag records whether the previous
character was cased (inside a word). -/
def pyTitleAux (prevCased : Bool) : PyStr → PyStr
  | [] => []
  | c :: rest =>
    (if pyCharIsCased c then (if prevCased then pyCharLower c else pyCharUpper c) else c)
      :: pyTitleAux (pyCharIsCased c) rest

/-- Python `str.title`. -/
def pyTitle (s : PyStr) : PyStr := pyTitleAux false s

/-- `needle` occurs as a contiguous substring of `haystack`. -/
def hasSub (needle : PyStr) : PyStr → Bool
  | [] => needle.isEmpty
  | c :: rest => needle.isPrefixOf (c :: rest) || hasSub needle rest

/-- `re.search(tag, text, flags=re.I)` succeeds — for the plain-word
patterns the program uses this is case-insensitive substring search. -/
def reSearchI (tag text : PyStr) : Bool :=
  hasSub (pyLower tag) (pyLower text)

/-- `HeadHunter._check_vacancy_on_extra_tags` (main.py:82-95): starts with
`flag = True`, ands in `re.search(tag, description, re.I)` for each tag and
breaks at the first failure — i.e. a short-circuit conjunction. -/
def hh_check_vacancy_on_extra_tags (description : PyStr) : List PyStr → Bool
  | [] => true
  | tag :: rest =>
    reSearchI tag description && hh_check_vacancy_on_extra_tags description rest

/-- `HabrCareer._check_vacancy_on_extra_tags` (main.py:285-298) — textually
the same loop as HeadHunter's. -/
def habr_check_vacancy_on_extra_tags (description : PyStr) : List PyStr → Bool
  | [] => true
  | tag :: rest =>
    reSearchI tag description && habr_check_vacancy_on_extra_tags description rest

/-- `HeadHunter._create_url`'s city table (main.py:68-71): the dictionary
lookup `cities_for_search[city.title()]`; an absent key raises `KeyError`,
modelled by `none`. -/
def hh_cities_for_search (city : PyStr) : Option Nat :=
  if city = pyStr "Москва" then some 1
  else if city = pyStr "Санкт-Петербург" then some 2
  else none

/-- The `&area=...` fragments the `for city in cities` loop of
`HeadHunter._create_url` (main.py:74-75) appends; `none` when the lookup of
some city's title-cased name raises `KeyError`. -/
def hh_area_params : List PyStr → Option PyStr
  | [] => some []
  | city :: rest =>
    match hh_cities_for_search (pyTitle city) with
    | none => none
    | some code =>
      match hh_area_params rest with
      | none => none
      | some tail => some (pyStr "&area=" ++ pyStr (Nat.repr code) ++ tail)

/-- `HeadHunter._create_url` (main.py:63-80). -/
def hh_create_url (main_tag : PyStr) (cities : List PyStr) (page : Nat) : Option PyStr :=
  match hh_area_params cities with
  | none => none
  | some areas =>
    some (pyStr "https://hh.ru/search/vacancy?order_by=publication_time"
      ++ pyStr "&text=" ++ pyLower main_tag ++ areas
      ++ pyStr "&page=" ++ pyStr (Nat.repr page))

/-- `HabrCareer._create_url`'s city table (main.py:271-274). -/
def habr_cities_for_search (city : PyStr) : Option PyStr :=
  if city = pyStr "Москва" then some (pyStr "c_678")
  else if city = pyStr "Санкт-Петербург" then some (pyStr "c_679")
  else none

/-- The `&locations[]=...` fragments of `HabrCareer._create_url`
(main.py:277-278). -/
def habr_location_params : List PyStr → Option PyStr
  | [] => some []
  | city :: rest =>
    match habr_cities_for_search (pyTitle city) with
    | none => none
    | some code =>
      match habr_location_params rest with
      | none => none
      | some tail => some (pyStr "&locations[]=" ++ code ++ tail)

/-- `HabrCareer._create_url` (main.py:266-283). -/
def habr_create_url (main_tag : PyStr) (cities : List PyStr) (page : Nat) : Option PyStr :=
  match habr_location_params cities with
  | none => none
  | some locations =>
    some (pyStr "https://career.habr.com/vacancies?sort=date&type=all&with_salary=true"
      ++ pyStr "&q=" ++ pyLower main_tag ++ locations
      ++ pyStr "&page=" ++ pyStr (Nat.repr page))

/-- One collected job posting: the dictionary `vacancies_info` built by
`_find_info_target_vacancy` once it is non-empty. -/
structure VacancyInfo where
  link : PyStr
  position : PyStr
  salary : PyStr
  company : PyStr
  address : PyStr
deriving DecidableEq

/-- The persisted JSON document `{'new': ..., 'old': ...}` of one source's
state file. -/
structure CollectionState where
  new : List VacancyInfo
  old : List VacancyInfo
deriving DecidableEq

/-- The `link` fields across both partitions of a persisted state, in
order. -/
def stateLinks (s : CollectionState) : List PyStr :=
  (s.new ++ s.old).map VacancyInfo.link

/-- The known-link set loaded at the start of a run: empty for an absent
file, else the links of `new ++ old` (`_pull_info_from_json`). -/
def knownLinksOf : Option CollectionState → List PyStr
  | none => []
  | some s => stateLinks s

/-- The optional DOM fields `HeadHunter._find_info_target_vacancy` queries
on a detail page; `none` for a field means the corresponding
`bsoup.find(...)` returned `None` (so `.text` raises `AttributeError`). -/
structure DetailPage where
  description : Option PyStr
  position : Option PyStr
  salary : Option PyStr
  company : Option PyStr
  rawAddress : Option PyStr
  location : Option PyStr
deriving DecidableEq

/-- The DOM elements `HabrCareer._find_info_target_vacancy` queries; a
`none` field means `wait_element` timed out (raises); `addresses` is the
`find_elements` list whose last element is taken (`[-1]` raises on `[]`). -/
structure HabrDetailPage where
  description : Option PyStr
  position : Option PyStr
  salary : Option PyStr
  company : Option PyStr
  addresses : List PyStr
deriving DecidableEq

/-- The network / DOM environment of one collection run.  For a results
page, `none` models the fetch itself raising; `some links` models a
response whose markup yields exactly `links` as the ordered listing links
(a non-success status page yields `some []`).  For a detail page, `none`
models the fetch raising. -/
structure Env where
  hhPage : Nat → Option (List PyStr)
  hhDetail : PyStr → Option DetailPage
  habrPage : Nat → Option (List PyStr)
  habrDetail : PyStr → Option HabrDetailPage

/-- Python `s.replace('\xa0', chr repl)` — code point 160 replaced. -/
def replaceNbsp (repl : Nat) (s : PyStr) : PyStr :=
  s.map fun c => if c = 160 then repl else c

/-- Field extraction of `HeadHunter._find_info_target_vacancy`
(main.py:116-144): position and company are required (`AttributeError`
propagates, `none` here); a missing salary is caught and replaced by the
sentinel `'не указано'`; a missing precise address falls back to the
`vacancy-view-location` element, itself required. -/
def hh_build_record (link : PyStr) (page : DetailPage) : Option VacancyInfo :=
  match page.position with
  | none => none
  | some pos =>
    match page.company with
    | none => none
    | some comp =>
      match page.rawAddress with
      | some addr =>
        some ⟨link, replaceNbsp 32 pos,
          replaceNbsp 46 ((page.salary).getD (pyStr "не указано")),
          replaceNbsp 32 comp, replaceNbsp 32 addr⟩
      | none =>
        match page.location with
        | none => none
        | some addr =>
          some ⟨link, replaceNbsp 32 pos,
            replaceNbsp 46 ((page.salary).getD (pyStr "не указано")),
            replaceNbsp 32 comp, replaceNbsp 32 addr⟩

/-- `HeadHunter._find_info_target_vacancy` (main.py:97-144).  Outer `none`:
an exception escapes (fetch failed, or a required element was absent);
`some none`: the keyword filter rejected, the empty dict is returned;
`some (some r)`: the record was collected. -/
def hh_find_info_target_vacancy (env : Env) (link : PyStr) (extra_tags : List PyStr) :
    Option (Option VacancyInfo) :=
  match env.hhDetail link with
  | none => none
  | some page =>
    match extra_tags with
    | [] =>
      match hh_build_record link page with
      | none => none
      | some r => some (some r)
    | t :: ts =>
      match page.description with
      | none => none
      | some d =>
        if hh_check_vacancy_on_extra_tags d (t :: ts) then
          match hh_build_record link page with
          | none => none
          | some r => some (some r)
        else some none

/-- Field extraction of `HabrCareer._find_info_target_vacancy`
(main.py:317-333): every element is fetched with `wait_element` (raises on
absence — no sentinel, no fallback), and the address is the last of the
`find_elements` list (IndexError on an empty list). -/
def habr_build_record (link : PyStr) (page : HabrDetailPage) : Option VacancyInfo :=
  match page.position with
  | none => none
  | some pos =>
    match page.salary with
    | none => none
    | some sal =>
      match page.company with
      | none => none
      | some comp =>
        match page.addresses.getLast? with
        | none => none
        | some addr => some ⟨link, pos, sal, comp, addr⟩

/-- `HabrCareer._find_info_target_vacancy` (main.py:300-333); the filter
call on main.py:313 is HeadHunter's `_check_vacancy_on_extra_tags`. -/
def habr_find_info_target_vacancy (env : Env) (link : PyStr) (extra_tags : List PyStr) :
    Option (Option VacancyInfo) :=
  match env.habrDetail link with
  | none => none
  | some page =>
    match extra_tags with
    | [] =>
      match habr_build_record link page with
      | none => none
      | some r => some (some r)
    | t :: ts =>
      match page.description with
      | none => none
      | some d =>
        if hh_check_vacancy_on_extra_tags d (t :: ts) then
          match habr_build_record link page with
          | none => none
          | some r => some (some r)
        else some none

/-- `listPage` for HeadHunter: the `href`s of the `h2` vacancy headers of
the results page, in document order (main.py:167-177) — all of them. -/
def hh_list_page (env : Env) (page : Nat) : Option (List PyStr) :=
  env.hhPage page

/-- `listPage` for HabrCareer: main.py:357 keeps only the first three
elements (`all_vacancies[:3]`). -/
def habr_list_page (env : Env) (page : Nat) : Option (List PyStr) :=
  (env.habrPage page).map (List.take 3)

/-- The per-page listing loop of `HeadHunter.find_vacancies_on_page`
(main.py:174-182): skip links in the known set, fetch the rest, keep
non-empty records; an exception from the detail fetch propagates. -/
def hh_collect_links (env : Env) (extra_tags old_links : List PyStr) :
    List PyStr → Option (List VacancyInfo)
  | [] => some []
  | link :: rest =>
    if link ∈ old_links then hh_collect_links env extra_tags old_links rest
    else
      match hh_find_info_target_vacancy env link extra_tags with
      | none => none
      | some none => hh_collect_links env extra_tags old_links rest
      | some (some r) =>
        match hh_collect_links env extra_tags old_links rest with
        | none => none
        | some tail => some (r :: tail)

/-- `HeadHunter.find_vacancies_on_page` (main.py:146-186): the URL is built
first (KeyError aborts before any fetch), then the results page is fetched
and its listing links processed. -/
def hh_find_vacancies_on_page (env : Env) (main_tag : PyStr) (cities : List PyStr)
    (extra_tags : List PyStr) (page : Nat) (old_links : List PyStr) :
    Option (List VacancyInfo) :=
  match hh_create_url main_tag cities page with
  | none => none
  | some _ =>
    match hh_list_page env page with
    | none => none
    | some links => hh_collect_links env extra_tags old_links links

/-- The per-page listing loop of `HabrCareer.find_vacancies_on_page`
(main.py:359-366), over the already-truncated link list. -/
def habr_collect_links (env : Env) (extra_tags old_links : List PyStr) :
    List PyStr → Option (List VacancyInfo)
  | [] => some []
  | link :: rest =>
    if link ∈ old_links then habr_collect_links env extra_tags old_links rest
    else
      match habr_find_info_target_vacancy env link extra_tags with
      | none => none
      | some none => habr_collect_links env extra_tags old_links rest
      | some (some r) =>
        match habr_collect_links env extra_tags old_links rest with
        | none => none
        | some tail => some (r :: tail)

/-- `HabrCareer.find_vacancies_on_page` (main.py:335-370). -/
def habr_find_vacancies_on_page (env : Env) (main_tag : PyStr) (cities : List PyStr)
    (extra_tags : List PyStr) (page : Nat) (old_links : List PyStr) :
    Option (List VacancyInfo) :=
  match habr_create_url main_tag cities page with
  | none => none
  | some _ =>
    match habr_list_page env page with
    | none => none
    | some links => habr_collect_links env extra_tags old_links links

/-- The page loop of `HeadHunter.find_all_vacancies` (main.py:207-214):
results of successive pages are concatenated in page order (`extend`);
an exception on any page aborts the run. -/
def hh_pages_loop (env : Env) (main_tag : PyStr) (cities extra_tags old_links : List PyStr) :
    List Nat → Option (List VacancyInfo)
  | [] => some []
  | p :: rest =>
    match hh_find_vacancies_on_page env main_tag cities extra_tags p old_links with
    | none => none
    | some found =>
      match hh_pages_loop env main_tag cities extra_tags old_links rest with
      | none => none
      | some tail => some (found ++ tail)

/-- The page loop of `HabrCareer.find_all_vacancies` (main.py:391-398). -/
def habr_pages_loop (env : Env) (main_tag : PyStr) (cities extra_tags old_links : List PyStr) :
    List Nat → Option (List VacancyInfo)
  | [] => some []
  | p :: rest =>
    match habr_find_vacancies_on_page env main_tag cities extra_tags p old_links with
    | none => none
    | some found =>
      match habr_pages_loop env main_tag cities extra_tags old_links rest with
      | none => none
      | some tail => some (found ++ tail)

/-- `HeadHunter._pull_info_from_json` (main.py:49-61): an absent file gives
empty links and records; otherwise the records are `new + old` and the
links their `link` fields (the Python `set` is modelled by the link list,
used only through membership). -/
def hh_pull_info_from_json (file : Option CollectionState) :
    List PyStr × List VacancyInfo :=
  match file with
  | none => ([], [])
  | some s => (stateLinks s, s.new ++ s.old)

/-- `HeadHunter._push_info_in_json` (main.py:38-47): the file is rewritten
with `{'new': new_vacancies_info, 'old': old_vacancies_info}`, fully
replacing its previous content. -/
def hh_push_info_in_json (new_info old_info : List VacancyInfo) : CollectionState :=
  ⟨new_info, old_info⟩

/-- `HeadHunter.find_all_vacancies` (main.py:188-218): load prior state,
scan pages `0..number_of_pages-1`, persist `{'new': found, 'old': prior
new ++ prior old}`.  Result `none`: an exception escapes mid-run, nothing
is persisted and the prior file is untouched. -/
def hh_find_all_vacancies (env : Env) (main_tag : PyStr) (cities extra_tags : List PyStr)
    (number_of_pages : Nat) (file : Option CollectionState) : Option CollectionState :=
  match hh_pages_loop env main_tag cities extra_tags
      (hh_pull_info_from_json file).1 (List.range number_of_pages) with
  | none => none
  | some found => some (hh_push_info_in_json found (hh_pull_info_from_json file).2)

/-- `HabrCareer._pull_info_from_json` (main.py:252-264) — same shape as
HeadHunter's, over `habrcareer_vacancies.json`. -/
def habr_pull_info_from_json (file : Option CollectionState) :
    List PyStr × List VacancyInfo :=
  match file with
  | none => ([], [])
  | some s => (stateLinks s, s.new ++ s.old)

/-- `HabrCareer._push_info_in_json` (main.py:241-250). -/
def habr_push_info_in_json (new_info old_info : List VacancyInfo) : CollectionState :=
  ⟨new_info, old_info⟩

/-- `HabrCareer.find_all_vacancies` (main.py:372-402): pages run over
`range(1, number_of_pages + 1)`. -/
def habr_find_all_vacancies (env : Env) (main_tag : PyStr) (cities extra_tags : List PyStr)
    (number_of_pages : Nat) (file : Option CollectionState) : Option CollectionState :=
  match habr_pages_loop env main_tag cities extra_tags
      (habr_pull_info_from_json file).1 ((List.range number_of_pages).map (· + 1)) with
  | none => none
  | some found => some (habr_push_info_in_json found (habr_pull_info_from_json file).2)

/-- Listing A of the spec's state-migration scenario. -/
def recA : VacancyInfo := ⟨[97], [], [], [], []⟩

/-- Listing B of the spec's state-migration scenario. -/
def recB : VacancyInfo := ⟨[98], [], [], [], []⟩

/-- Listing C of the spec's state-migration scenario. -/
def recC : VacancyInfo := ⟨[99], [], [], [], []⟩

/-- A detail page carrying every field the extraction needs. -/
def pageD : DetailPage := ⟨some [], some [112], some [115], some [99], some [97], none⟩

/-- The record the run collects from `pageD` under link `[100]`. -/
def recD : VacancyInfo := ⟨[100], [112], [115], [99], [97]⟩

/-- Environment for the migration scenario: page 0 lists the unknown link
`[100]` (listing D) and the already-known `[97]` (listing A). -/
def envC1 : Env :=
  ⟨fun p => if p = 0 then some [[100], [97]] else some [],
   fun l => if l = [100] then some pageD else none,
   fun _ => some [], fun _ => none⟩

/-- Environment whose single page lists only the already-known link of
`recA`. -/
def envC3 : Env :=
  ⟨fun _ => some [[97]], fun _ => none, fun _ => some [], fun _ => none⟩

/-- The ordered multiset of listing links the environment offers across
the given pages — everything one run can discover. -/
def hh_discovered (env : Env) (ps : List Nat) : List PyStr :=
  ps.flatMap fun p => (env.hhPage p).getD []

/-- **C2 counterexample.** The run never adds links found earlier in the
same run to the skip set: from empty prior state, a page listing the same
unknown link twice persists the record twice — `new ∪ old` has a repeated
`link`, although every identifier of the *loaded* known-link set (empty
here) was skipped as required. -/
def envDup : Env :=
  ⟨fun p => if p = 0 then some [[100], [100]] else some [],
   fun l => if l = [100] then some pageD else none,
   fun _ => some [], fun _ => none⟩

/-- Environment whose Habr results page 1 offers four listing links. -/
def envC5 : Env :=
  ⟨fun _ => some [], fun _ => none,
   fun p => if p = 1 then some [[1], [2], [3], [4]] else some [],
   fun _ => none⟩

/-- Environment where the one results page lists one unknown link whose
detail fetch raises. -/
def envC6 : Env :=
  ⟨fun p => if p = 0 then some [[100]] else some [],
   fun _ => none, fun _ => some [], fun _ => none⟩

/-- Environment where the results-page fetch itself raises. -/
def envC6b : Env :=
  ⟨fun _ => none, fun _ => none, fun _ => some [], fun _ => none⟩

/-- Environment where every results page parses to zero listings. -/
def envEmptyPages : Env :=
  ⟨fun _ => some [], fun _ => none, fun _ => some [], fun _ => none⟩

/-- A HabrCareer detail page whose salary element is absent (everything
else present). -/
def c7Page : HabrDetailPage := ⟨some [], some [112], none, some [99], [[97]]⟩

/-- Environment for the HabrCareer missing-salary scenario: page 1 offers
the unknown link `[100]`, whose detail page lacks a salary element. -/
def envC7 : Env :=
  ⟨fun _ => some [], fun _ => none,
   fun p => if p = 1 then some [[100]] else some [],
   fun l => if l = [100] then some c7Page else none⟩

/-- A HeadHunter detail page missing both the salary and the precise
address. -/
def pageNoSalary : DetailPage := ⟨some [], some [112], none, some [99], some [97], none⟩

theorem pyCharLower_idem (c : Nat) : pyCharLower (pyCharLower c) = pyCharLower c := by
  simp only [pyCharLower]
  split_ifs <;> omega

theorem pyCharUpper_idem (c : Nat) : pyCharUpper (pyCharUpper c) = pyCharUpper c := by
  simp only [pyCharUpper]
  split_ifs <;> omega

theorem pyCharIsCased_lower (c : Nat) :
    pyCharIsCased (pyCharLower c) = pyCharIsCased c := by
  simp only [pyCharIsCased, pyCharLower, decide_eq_decide]
  split_ifs <;> omega

theorem pyCharIsCased_upper (c : Nat) :
    pyCharIsCased (pyCharUpper c) = pyCharIsCased c := by
  simp only [pyCharIsCased, pyCharUpper, decide_eq_decide]
  split_ifs <;> omega

theorem pyCharLower_of_not_cased (c : Nat) (h : pyCharIsCased c = false) :
    pyCharLower c = c := by
  simp only [pyCharIsCased, decide_eq_false_iff_not] at h
  simp only [pyCharLower]
  split_ifs <;> omega

theorem pyLower_idem (s : PyStr) : pyLower (pyLower s) = pyLower s := by
  simp only [pyLower, List.map_map]
  exact List.map_congr_left fun c _ => pyCharLower_idem c

theorem pyTitleAux_idem (s : PyStr) (b : Bool) :
    pyTitleAux b (pyTitleAux b s) = pyTitleAux b s := by
  induction s generalizing b with
  | nil => rfl
  | cons c rest ih =>
    rcases hc : pyCharIsCased c with _ | _ <;> rcases b with _ | _ <;>
      simp [pyTitleAux, hc, pyCharIsCased_upper, pyCharIsCased_lower,
        pyCharUpper_idem, pyCharLower_idem, ih]

theorem pyTitle_idem (s : PyStr) : pyTitle (pyTitle s) = pyTitle s :=
  pyTitleAux_idem s false

theorem hh_area_params_map_title (cities : List PyStr) :
    hh_area_params (cities.map pyTitle) = hh_area_params cities := by
  induction cities with
  | nil => rfl
  | cons c rest ih =>
    simp only [List.map_cons, hh_area_params, pyTitle_idem, ih]

theorem habr_location_params_map_title (cities : List PyStr) :
    habr_location_params (cities.map pyTitle) = habr_location_params cities := by
  induction cities with
  | nil => rfl
  | cons c rest ih =>
    simp only [List.map_cons, habr_location_params, pyTitle_idem, ih]

/-- **C10.** The search URL depends on `main_tag` only through its
lower-cased form and on each city only through its title-cased form: both
`_create_url`s give the same result on `main_tag.lower()` and the
title-cased city list as on the originals. -/
theorem claim10_url_case_insensitive (main_tag : PyStr) (cities : List PyStr) (page : Nat) :
    hh_create_url (pyLower main_tag) (cities.map pyTitle) page
      = hh_create_url main_tag cities page
    ∧ habr_create_url (pyLower main_tag) (cities.map pyTitle) page
      = habr_create_url main_tag cities page := by
  constructor
  · simp only [hh_create_url, hh_area_params_map_title, pyLower_idem]
  · simp only [habr_create_url, habr_location_params_map_title, pyLower_idem]

theorem hh_check_eq_all (d : PyStr) (tags : List PyStr) :
    hh_check_vacancy_on_extra_tags d tags = true ↔ ∀ t ∈ tags, reSearchI t d = true := by
  induction tags with
  | nil => simp [hh_check_vacancy_on_extra_tags]
  | cons t rest ih =>
    simp [hh_check_vacancy_on_extra_tags, Bool.and_eq_true, ih]

theorem habr_check_eq_hh_check (d : PyStr) (tags : List PyStr) :
    habr_check_vacancy_on_extra_tags d tags = hh_check_vacancy_on_extra_tags d tags := by
  induction tags with
  | nil => rfl
  | cons t rest ih =>
    simp [hh_check_vacancy_on_extra_tags, habr_check_vacancy_on_extra_tags, ih]

/-- **C4.** The keyword filter returns `true` iff every term matches
case-insensitively in the text; it is vacuously `true` on the empty term
list; and it short-circuits: once a term fails, the remaining terms are
never examined (the result does not depend on them).  Both adapters'
filters agree. -/
theorem claim4_keyword_filter (d : PyStr) (tags : List PyStr) :
    (hh_check_vacancy_on_extra_tags d tags = true ↔ ∀ t ∈ tags, reSearchI t d = true)
    ∧ hh_check_vacancy_on_extra_tags d [] = true
    ∧ (∀ t rest rest', reSearchI t d = false →
        hh_check_vacancy_on_extra_tags d (t :: rest)
          = hh_check_vacancy_on_extra_tags d (t :: rest'))
    ∧ habr_check_vacancy_on_extra_tags d tags = hh_check_vacancy_on_extra_tags d tags := by
  refine ⟨hh_check_eq_all d tags, rfl, ?_, habr_check_eq_hh_check d tags⟩
  intro t rest rest' hfail
  simp [hh_check_vacancy_on_extra_tags, hfail]

/-- **C4 witness.** The spec's own examples, through `claim4_keyword_filter`:
`matches("Senior Go Engineer", []) = true`, `matches(…, ["go"]) = true`, and
with a failing first term the tail is irrelevant. -/
theorem claim4_keyword_filter_witness :
    hh_check_vacancy_on_extra_tags (pyStr "Senior Go Engineer") [] = true
    ∧ hh_check_vacancy_on_extra_tags (pyStr "Senior Go Engineer") [pyStr "go"] = true
    ∧ hh_check_vacancy_on_extra_tags (pyStr "Senior Go Engineer")
        [pyStr "rust", pyStr "go"]
      = hh_check_vacancy_on_extra_tags (pyStr "Senior Go Engineer")
        [pyStr "rust", pyStr "python"] := by
  refine ⟨(claim4_keyword_filter (pyStr "Senior Go Engineer") []).2.1, ?_, ?_⟩
  · exact (claim4_keyword_filter (pyStr "Senior Go Engineer") [pyStr "go"]).1.mpr
      (by decide)
  · exact (claim4_keyword_filter (pyStr "Senior Go Engineer") []).2.2.1
      (pyStr "rust") [pyStr "go"] [pyStr "python"] (by decide)

/-- **C1.** A run that loads state `{new: N, old: O}` persists exactly
`{new: F, old: N ++ O}` where `F` is the record list the page loop finds,
fully replacing the file — for both adapters; and concretely, from
`{new:[A,B], old:[C]}` a run finding only `D` persists
`{new:[D], old:[A,B,C]}`. -/
theorem claim1_run_persists_found_and_merged_old :
    (∀ env mt (cs et : List PyStr) n (N O : List VacancyInfo),
      hh_find_all_vacancies env mt cs et n (some ⟨N, O⟩)
        = Option.map (fun F => (⟨F, N ++ O⟩ : CollectionState))
            (hh_pages_loop env mt cs et (stateLinks ⟨N, O⟩) (List.range n)))
    ∧ (∀ env mt (cs et : List PyStr) n (N O : List VacancyInfo),
      habr_find_all_vacancies env mt cs et n (some ⟨N, O⟩)
        = Option.map (fun F => (⟨F, N ++ O⟩ : CollectionState))
            (habr_pages_loop env mt cs et (stateLinks ⟨N, O⟩)
              ((List.range n).map (· + 1))))
    ∧ hh_find_all_vacancies envC1 [] [] [] 1 (some ⟨[recA, recB], [recC]⟩)
        = some ⟨[recD], [recA, recB, recC]⟩ := by
  refine ⟨?_, ?_, by decide⟩
  · intro env mt cs et n N O
    rcases h : hh_pages_loop env mt cs et (stateLinks ⟨N, O⟩) (List.range n) with _ | F <;>
      simp [hh_find_all_vacancies, hh_pull_info_from_json, hh_push_info_in_json, h]
  · intro env mt cs et n N O
    rcases h : habr_pages_loop env mt cs et (stateLinks ⟨N, O⟩)
        ((List.range n).map (· + 1)) with _ | F <;>
      simp [habr_find_all_vacancies, habr_pull_info_from_json, habr_push_info_in_json, h]

theorem hh_collect_links_all_known (env : Env) (et old links : List PyStr)
    (h : ∀ l ∈ links, l ∈ old) :
    hh_collect_links env et old links = some [] := by
  induction links with
  | nil => rfl
  | cons l rest ih =>
    have hl : l ∈ old := h l (List.mem_cons_self l rest)
    simp only [hh_collect_links, if_pos hl]
    exact ih fun x hx => h x (List.mem_cons_of_mem l hx)

theorem hh_pages_loop_all_known (env : Env) (mt : PyStr) (cs et old : List PyStr)
    (ps : List Nat) (hcity : hh_area_params cs ≠ none)
    (h : ∀ p ∈ ps, env.hhPage p ≠ none ∧ ∀ l ∈ (env.hhPage p).getD [], l ∈ old) :
    hh_pages_loop env mt cs et old ps = some [] := by
  induction ps with
  | nil => rfl
  | cons p rest ih =>
    obtain ⟨hne, hl⟩ := h p (List.mem_cons_self p rest)
    rcases hp : env.hhPage p with _ | links
    · exact absurd hp hne
    · rcases hc : hh_area_params cs with _ | areas
      · exact absurd hc hcity
      · rw [hp] at hl
        simp only [hh_pages_loop, hh_find_vacancies_on_page, hh_create_url, hc,
          hh_list_page, hp, hh_collect_links_all_known env et old links hl,
          ih fun q hq => h q (List.mem_cons_of_mem p hq), List.nil_append]

/-- **C3.** If every link every scanned page yields is already in the
loaded known-link set (and the cities are all mapped, so the run
completes), the run persists `{new: [], old: prior new ++ prior old}`, and
a second identical run persists that same state again — the persisted
content is unchanged. -/
theorem claim3_dedup_idempotent (env : Env) (mt : PyStr) (cs et : List PyStr)
    (n : Nat) (s : CollectionState)
    (hcity : hh_area_params cs ≠ none)
    (hpages : ∀ p, p < n →
      env.hhPage p ≠ none ∧ ∀ l ∈ (env.hhPage p).getD [], l ∈ stateLinks s) :
    hh_find_all_vacancies env mt cs et n (some s) = some ⟨[], s.new ++ s.old⟩
    ∧ hh_find_all_vacancies env mt cs et n (some ⟨[], s.new ++ s.old⟩)
        = some ⟨[], s.new ++ s.old⟩ := by
  have hsame : stateLinks (⟨[], s.new ++ s.old⟩ : CollectionState) = stateLinks s := rfl
  constructor
  · simp only [hh_find_all_vacancies, hh_pull_info_from_json,
      hh_pages_loop_all_known env mt cs et (stateLinks s) (List.range n) hcity
        (fun p hp => hpages p (List.mem_range.mp hp)), hh_push_info_in_json]
  · simp only [hh_find_all_vacancies, hh_pull_info_from_json, hsame,
      hh_pages_loop_all_known env mt cs et (stateLinks s) (List.range n) hcity
        (fun p hp => hpages p (List.mem_range.mp hp)), hh_push_info_in_json,
      List.nil_append]

/-- **C3 witness.** With prior state `{new:[A], old:[]}` and a source
yielding only A's link, both the first and the second run persist
`{new: [], old: [A]}`. -/
theorem claim3_dedup_idempotent_witness :
    hh_find_all_vacancies envC3 [] [] [] 1 (some ⟨[recA], []⟩) = some ⟨[], [recA]⟩
    ∧ hh_find_all_vacancies envC3 [] [] [] 1 (some ⟨[], [recA]⟩) = some ⟨[], [recA]⟩ :=
  claim3_dedup_idempotent envC3 [] [] [] 1 ⟨[recA], []⟩ (by decide) (by decide)

theorem hh_area_params_none_of_missing (cs : List PyStr) (c : PyStr)
    (hc : c ∈ cs) (hm : hh_cities_for_search (pyTitle c) = none) :
    hh_area_params cs = none := by
  induction cs with
  | nil => cases hc
  | cons c' rest ih =>
    rcases List.mem_cons.mp hc with rfl | hmem
    · simp [hh_area_params, hm]
    · simp only [hh_area_params, ih hmem]
      cases hh_cities_for_search (pyTitle c') <;> rfl

theorem habr_location_params_none_of_missing (cs : List PyStr) (c : PyStr)
    (hc : c ∈ cs) (hm : habr_cities_for_search (pyTitle c) = none) :
    habr_location_params cs = none := by
  induction cs with
  | nil => cases hc
  | cons c' rest ih =>
    rcases List.mem_cons.mp hc with rfl | hmem
    · simp [habr_location_params, hm]
    · simp only [habr_location_params, ih hmem]
      cases habr_cities_for_search (pyTitle c') <;> rfl

/-- **C8.** A configured city absent from a source's location table makes
`_create_url` raise `KeyError` (our `none`); every page call and — as soon
as at least one page is scanned — the whole run abort with that error for
*every* environment, i.e. without the network being consulted, and nothing
is persisted. -/
theorem claim8_unknown_location (mt c : PyStr) (cs et old : List PyStr)
    (p n : Nat) (st : Option CollectionState) (hc : c ∈ cs)
    (hmiss : hh_cities_for_search (pyTitle c) = none)
    (hmiss2 : habr_cities_for_search (pyTitle c) = none) :
    hh_create_url mt cs p = none
    ∧ (∀ env, hh_find_vacancies_on_page env mt cs et p old = none)
    ∧ (1 ≤ n → ∀ env, hh_find_all_vacancies env mt cs et n st = none)
    ∧ habr_create_url mt cs p = none
    ∧ (∀ env, habr_find_vacancies_on_page env mt cs et p old = none)
    ∧ (1 ≤ n → ∀ env, habr_find_all_vacancies env mt cs et n st = none) := by
  have ha := hh_area_params_none_of_missing cs c hc hmiss
  have hb := habr_location_params_none_of_missing cs c hc hmiss2
  have hurl : hh_create_url mt cs p = none := by simp [hh_create_url, ha]
  have hurl2 : habr_create_url mt cs p = none := by simp [habr_create_url, hb]
  have hpage : ∀ env q ol, hh_find_vacancies_on_page env mt cs et q ol = none := by
    intro env q ol
    simp [hh_find_vacancies_on_page, hh_create_url, ha]
  have hpage2 : ∀ env q ol, habr_find_vacancies_on_page env mt cs et q ol = none := by
    intro env q ol
    simp [habr_find_vacancies_on_page, habr_create_url, hb]
  refine ⟨hurl, fun env => hpage env p old, ?_, hurl2, fun env => hpage2 env p old, ?_⟩
  · intro hn env
    obtain ⟨m, rfl⟩ : ∃ m, n = m + 1 := ⟨n - 1, by omega⟩
    simp [hh_find_all_vacancies, List.range_succ_eq_map, hh_pages_loop, hpage]
  · intro hn env
    obtain ⟨m, rfl⟩ : ∃ m, n = m + 1 := ⟨n - 1, by omega⟩
    simp [habr_find_all_vacancies, List.range_succ_eq_map, habr_pages_loop, hpage2]

/-- **C8 witness.** The city `Казань` is in neither table: URL construction
fails and the run aborts for a concrete environment. -/
theorem claim8_unknown_location_witness :
    hh_create_url (pyStr "python") [pyStr "Казань"] 0 = none
    ∧ hh_find_all_vacancies envC3 (pyStr "python") [pyStr "Казань"] [] 1 none = none
    ∧ habr_create_url (pyStr "python") [pyStr "Казань"] 0 = none
    ∧ habr_find_all_vacancies envC3 (pyStr "python") [pyStr "Казань"] [] 1 none = none := by
  have h := claim8_unknown_location (pyStr "python") (pyStr "Казань") [pyStr "Казань"]
    [] [] 0 1 none (by decide) (by decide) (by decide)
  exact ⟨h.1, h.2.2.1 (by decide) envC3, h.2.2.2.1, h.2.2.2.2.2 (by decide) envC3⟩

theorem hh_build_record_link (l : PyStr) (page : DetailPage) (r : VacancyInfo)
    (h : hh_build_record l page = some r) : r.link = l := by
  obtain ⟨d, pos, sal, comp, raw, loc⟩ := page
  cases pos <;> cases comp <;> cases raw <;> cases loc <;>
    simp_all [hh_build_record] <;> simp [← h]

theorem hh_find_info_link (env : Env) (l : PyStr) (et : List PyStr) (r : VacancyInfo)
    (h : hh_find_info_target_vacancy env l et = some (some r)) : r.link = l := by
  unfold hh_find_info_target_vacancy at h
  rcases hd : env.hhDetail l with _ | page
  · simp only [hd] at h
    cases h
  · simp only [hd] at h
    rcases et with _ | ⟨t, ts⟩
    · rcases hb : hh_build_record l page with _ | r'
      · simp only [hb] at h
        cases h
      · simp only [hb] at h
        cases h
        exact hh_build_record_link l page r hb
    · rcases hdesc : page.description with _ | d
      · simp only [hdesc] at h
        cases h
      · simp only [hdesc] at h
        by_cases hchk : hh_check_vacancy_on_extra_tags d (t :: ts) = true
        · rw [if_pos hchk] at h
          rcases hb : hh_build_record l page with _ | r'
          · simp only [hb] at h
            cases h
          · simp only [hb] at h
            cases h
            exact hh_build_record_link l page r hb
        · rw [if_neg hchk] at h
          cases h

theorem hh_collect_links_spec (env : Env) (et old : List PyStr)
    (links : List PyStr) (rs : List VacancyInfo)
    (h : hh_collect_links env et old links = some rs) :
    List.Sublist (rs.map VacancyInfo.link) links ∧ ∀ r ∈ rs, r.link ∉ old := by
  induction links generalizing rs with
  | nil =>
    cases h
    exact ⟨List.nil_sublist [], by simp⟩
  | cons l rest ih =>
    by_cases hl : l ∈ old
    · rw [hh_collect_links, if_pos hl] at h
      obtain ⟨h1, h2⟩ := ih rs h
      exact ⟨h1.cons l, h2⟩
    · rw [hh_collect_links, if_neg hl] at h
      rcases hf : hh_find_info_target_vacancy env l et with _ | o
      · rw [hf] at h; cases h
      · rw [hf] at h
        rcases o with _ | r
        · obtain ⟨h1, h2⟩ := ih rs h
          exact ⟨h1.cons l, h2⟩
        · rcases ht : hh_collect_links env et old rest with _ | tail
          · rw [ht] at h; cases h
          · rw [ht] at h
            cases h
            obtain ⟨h1, h2⟩ := ih tail ht
            have hrl : r.link = l := hh_find_info_link env l et r hf
            refine ⟨?_, ?_⟩
            · simpa [hrl] using h1.cons₂ l
            · intro r' hr'
              rcases List.mem_cons.mp hr' with rfl | hmem
              · rw [hrl]; exact hl
              · exact h2 r' hmem

theorem hh_pages_loop_spec (env : Env) (mt : PyStr) (cs et old : List PyStr)
    (ps : List Nat) (F : List VacancyInfo)
    (h : hh_pages_loop env mt cs et old ps = some F) :
    List.Sublist (F.map VacancyInfo.link) (hh_discovered env ps) ∧ ∀ r ∈ F, r.link ∉ old := by
  induction ps generalizing F with
  | nil =>
    cases h
    exact ⟨List.nil_sublist _, by simp⟩
  | cons p rest ih =>
    rw [hh_pages_loop] at h
    rcases hp : hh_find_vacancies_on_page env mt cs et p old with _ | found
    · rw [hp] at h; cases h
    · rw [hp] at h
      rcases ht : hh_pages_loop env mt cs et old rest with _ | tail
      · rw [ht] at h; cases h
      · rw [ht] at h
        cases h
        obtain ⟨ih1, ih2⟩ := ih tail ht
        unfold hh_find_vacancies_on_page at hp
        rcases hu : hh_create_url mt cs p with _ | u
        · rw [hu] at hp; cases hp
        · rw [hu] at hp
          rcases hpg : hh_list_page env p with _ | links
          · rw [hpg] at hp; cases hp
          · rw [hpg] at hp
            obtain ⟨f1, f2⟩ := hh_collect_links_spec env et old links found hp
            have hdisc : hh_discovered env (p :: rest)
                = links ++ hh_discovered env rest := by
              simp [hh_discovered, hh_list_page] at hpg ⊢
              simp [hpg]
            refine ⟨?_, ?_⟩
            · rw [List.map_append, hdisc]
              exact f1.append ih1
            · intro r hr
              rcases List.mem_append.mp hr with hm | hm
              · exact f2 r hm
              · exact ih2 r hm

/-- **C2 counterexample theorem**: the claim fails on the code at this
concrete input. -/
theorem claim2_counterexample :
    hh_find_all_vacancies envDup [] [] [] 1 none = some ⟨[recD, recD], []⟩
    ∧ ¬ (stateLinks ⟨[recD, recD], []⟩).Nodup := by
  constructor
  · decide
  · decide

/-- **C2 amended.** If the prior state's links are pairwise distinct *and*
the identifiers the environment offers across the scanned pages are
pairwise distinct, then any state a completed run persists has `link`
unique across `new ∪ old`.  (The extra distinctness hypothesis is forced:
the run only skips identifiers of the *loaded* known-link set, never ones
discovered earlier in the same run — see `claim2_counterexample`.) -/
theorem claim2_links_unique (env : Env) (mt : PyStr) (cs et : List PyStr) (n : Nat)
    (file : Option CollectionState) (s' : CollectionState)
    (hprior : (knownLinksOf file).Nodup)
    (hdisc : (hh_discovered env (List.range n)).Nodup)
    (hrun : hh_find_all_vacancies env mt cs et n file = some s') :
    (stateLinks s').Nodup := by
  unfold hh_find_all_vacancies at hrun
  rcases hF : hh_pages_loop env mt cs et (hh_pull_info_from_json file).1
      (List.range n) with _ | F
  · rw [hF] at hrun; cases hrun
  · rw [hF] at hrun
    cases hrun
    have hfst : (hh_pull_info_from_json file).1 = knownLinksOf file := by
      cases file <;> rfl
    have hsnd : (hh_pull_info_from_json file).2.map VacancyInfo.link
        = knownLinksOf file := by
      cases file <;> rfl
    rw [hfst] at hF
    obtain ⟨h1, h2⟩ := hh_pages_loop_spec env mt cs et (knownLinksOf file)
      (List.range n) F hF
    have hFnd : (F.map VacancyInfo.link).Nodup := h1.nodup hdisc
    show ((F ++ (hh_pull_info_from_json file).2).map VacancyInfo.link).Nodup
    rw [List.map_append, hsnd]
    exact List.Nodup.append hFnd hprior
      (List.disjoint_left.mpr fun a ha =>
        by
          obtain ⟨r, hr, rfl⟩ := List.mem_map.mp ha
          exact h2 r hr)

/-- **C2 witness.** The migration-scenario run: prior links `{a,b,c}` are
distinct, the page offers the distinct identifiers `d, a`, and the
persisted state's links are unique. -/
theorem claim2_links_unique_witness :
    (stateLinks ⟨[recD], [recA, recB, recC]⟩).Nodup :=
  claim2_links_unique envC1 [] [] [] 1 (some ⟨[recA, recB], [recC]⟩)
    ⟨[recD], [recA, recB, recC]⟩ (by decide) (by decide) (by decide)

/-- **C5 counterexample.** The HabrCareer listing extraction keeps only the
first three identifiers (`all_vacancies[:3]`, main.py:357): on a results
page offering four links it does not return the full ordered sequence. -/
theorem claim5_counterexample :
    envC5.habrPage 1 = some [[1], [2], [3], [4]]
    ∧ habr_list_page envC5 1 = some [[1], [2], [3]]
    ∧ habr_list_page envC5 1 ≠ envC5.habrPage 1 := by
  refine ⟨rfl, rfl, ?_⟩
  decide

/-- **C5 amended.** `listPage` keeps the page's identifier order and
treats zero matches as an empty sequence, not an error (the page loop then
simply finds nothing): the HeadHunter adapter returns *all* identifiers on
the page, while the HabrCareer adapter returns only the first three
(everything beyond the third is dropped). -/
theorem claim5_list_page (env : Env) (p : Nat) (links : List PyStr)
    (mt : PyStr) (cs et old : List PyStr) :
    hh_list_page env p = env.hhPage p
    ∧ (env.habrPage p = some links → habr_list_page env p = some (links.take 3))
    ∧ (env.habrPage p = some links → links.length ≤ 3 →
        habr_list_page env p = some links)
    ∧ (env.hhPage p = some [] → hh_area_params cs ≠ none →
        hh_find_vacancies_on_page env mt cs et p old = some [])
    ∧ (env.habrPage p = some [] → habr_location_params cs ≠ none →
        habr_find_vacancies_on_page env mt cs et p old = some []) := by
  refine ⟨rfl, ?_, ?_, ?_, ?_⟩
  · intro h
    simp [habr_list_page, h]
  · intro h hlen
    simp [habr_list_page, h, List.take_of_length_le hlen]
  · intro h hc
    rcases ha : hh_area_params cs with _ | areas
    · exact absurd ha hc
    · simp [hh_find_vacancies_on_page, hh_create_url, ha, hh_list_page, h,
        hh_collect_links]
  · intro h hc
    rcases ha : habr_location_params cs with _ | locs
    · exact absurd ha hc
    · simp [habr_find_vacancies_on_page, habr_create_url, ha, habr_list_page, h,
        habr_collect_links]

/-- **C5 witness.** On the four-link page the amended theorem gives the
three-element truncation; on an empty page both adapters' page scans
return zero results without an error. -/
theorem claim5_list_page_witness :
    habr_list_page envC5 1 = some [[1], [2], [3]]
    ∧ hh_find_vacancies_on_page envC5 [] [] [] 0 [] = some []
    ∧ habr_find_vacancies_on_page envC5 [] [] [] 0 [] = some [] := by
  refine ⟨(claim5_list_page envC5 1 [[1], [2], [3], [4]] [] [] [] []).2.1 rfl, ?_, ?_⟩
  · exact (claim5_list_page envC5 0 [] [] [] [] []).2.2.2.1 rfl (by decide)
  · exact (claim5_list_page envC5 0 [] [] [] [] []).2.2.2.2 rfl (by decide)

/-- **C6 counterexample.** A detail-page fetch failure (first run) or a
results-page fetch failure (second run) is *not* absorbed: no
`try`/`except` guards the fetches, the exception escapes
`find_all_vacancies` (result `none`), the run aborts and persists
nothing — the claim says such failures are per-listing/per-page skips
that never abort the run. -/
theorem claim6_counterexample :
    hh_find_all_vacancies envC6 [] [] [] 1 none = none
    ∧ hh_find_all_vacancies envC6b [] [] [] 1 none = none := by
  constructor
  · decide
  · decide

/-- **C6 amended.** A response that parses to zero listings (e.g. a
non-success status page) is zero results for that page and does not abort:
if every page parses to zero listings the run completes and persists
`{new: [], old: prior new ++ prior old}`.  But an exception while fetching
a results page aborts the whole run with nothing persisted (and
`claim6_counterexample` shows the same for a detail page). -/
theorem claim6_failed_pages (env : Env) (mt : PyStr) (cs et : List PyStr)
    (n : Nat) (s : CollectionState) (file : Option CollectionState)
    (hcity : hh_area_params cs ≠ none) :
    ((∀ p, p < n → env.hhPage p = some []) →
      hh_find_all_vacancies env mt cs et n (some s) = some ⟨[], s.new ++ s.old⟩)
    ∧ (1 ≤ n → env.hhPage 0 = none →
      hh_find_all_vacancies env mt cs et n file = none) := by
  constructor
  · intro hempty
    have h := hh_pages_loop_all_known env mt cs et (stateLinks s) (List.range n) hcity
      (fun p hp => by
        have he := hempty p (List.mem_range.mp hp)
        exact ⟨by simp [he], by simp [he]⟩)
    simp only [hh_find_all_vacancies, hh_pull_info_from_json, h, hh_push_info_in_json]
  · intro hn hfail
    obtain ⟨m, rfl⟩ : ∃ m, n = m + 1 := ⟨n - 1, by omega⟩
    rcases ha : hh_area_params cs with _ | areas
    · exact absurd ha hcity
    · simp [hh_find_all_vacancies, List.range_succ_eq_map, hh_pages_loop,
        hh_find_vacancies_on_page, hh_create_url, ha, hh_list_page, hfail]

/-- **C6 witness.** With every page parsing to zero listings a two-page
run persists `{new: [], old: [A]}`; with the first page's fetch raising,
the run aborts. -/
theorem claim6_failed_pages_witness :
    hh_find_all_vacancies envEmptyPages [] [] [] 2 (some ⟨[recA], []⟩)
      = some ⟨[], [recA]⟩
    ∧ hh_find_all_vacancies envC6b [] [] [] 1 (some ⟨[recA], []⟩) = none := by
  constructor
  · exact (claim6_failed_pages envEmptyPages [] [] [] 2 ⟨[recA], []⟩ none
      (by decide)).1 (by decide)
  · exact (claim6_failed_pages envC6b [] [] [] 1 ⟨[recA], []⟩
      (some ⟨[recA], []⟩) (by decide)).2 (by decide) (by decide)

/-- **C7 counterexample.** The HabrCareer adapter has no sentinel and no
fallback: its salary element is fetched with `wait_element`
(main.py:322-323), which raises on absence, so a detail page without a
salary does not yield a record with a sentinel — the exception escapes
(`none`) and even aborts the whole run.  The claim asserts tolerance "for
both adapters". -/
theorem claim7_counterexample :
    habr_find_info_target_vacancy envC7 [100] [] = none
    ∧ habr_find_all_vacancies envC7 [] [] [] 1 none = none := by
  constructor
  · decide
  · decide

/-- **C7 amended.** Only the HeadHunter adapter tolerates absence of the
optional fields, and does so independently: a missing salary yields the
sentinel `'не указано'`, a missing precise address falls back to the
coarser `vacancy-view-location` field, and both can be absent at once,
without failing the record.  The HabrCareer adapter raises on a missing
salary element (no sentinel), failing the record and the run. -/
theorem claim7_optional_field_tolerance (l : PyStr) (page : DetailPage)
    (hp : HabrDetailPage) (pos comp addr loc sal : PyStr) :
    (page.position = some pos → page.company = some comp →
      page.rawAddress = some addr → page.salary = none →
      hh_build_record l page
        = some ⟨l, replaceNbsp 32 pos, replaceNbsp 46 (pyStr "не указано"),
            replaceNbsp 32 comp, replaceNbsp 32 addr⟩)
    ∧ (page.position = some pos → page.company = some comp →
      page.salary = some sal → page.rawAddress = none → page.location = some loc →
      hh_build_record l page
        = some ⟨l, replaceNbsp 32 pos, replaceNbsp 46 sal,
            replaceNbsp 32 comp, replaceNbsp 32 loc⟩)
    ∧ (page.position = some pos → page.company = some comp →
      page.salary = none → page.rawAddress = none → page.location = some loc →
      hh_build_record l page
        = some ⟨l, replaceNbsp 32 pos, replaceNbsp 46 (pyStr "не указано"),
            replaceNbsp 32 comp, replaceNbsp 32 loc⟩)
    ∧ (hp.salary = none → habr_build_record l hp = none) := by
  refine ⟨?_, ?_, ?_, ?_⟩
  · intro hpos hcomp hraw hsal
    simp [hh_build_record, hpos, hcomp, hraw, hsal]
  · intro hpos hcomp hsal hraw hloc
    simp [hh_build_record, hpos, hcomp, hsal, hraw, hloc]
  · intro hpos hcomp hsal hraw hloc
    simp [hh_build_record, hpos, hcomp, hsal, hraw, hloc]
  · intro hsal
    rcases hpos2 : hp.position with _ | pos2
    · simp [habr_build_record, hpos2]
    · simp [habr_build_record, hpos2, hsal]

/-- **C7 witness.** On a concrete HeadHunter page without a salary the
record is produced with the sentinel; on the concrete HabrCareer page
without a salary the extraction raises. -/
theorem claim7_optional_field_tolerance_witness :
    hh_build_record [100] pageNoSalary
      = some ⟨[100], replaceNbsp 32 [112], replaceNbsp 46 (pyStr "не указано"),
          replaceNbsp 32 [99], replaceNbsp 32 [97]⟩
    ∧ habr_build_record [100] c7Page = none := by
  constructor
  · exact (claim7_optional_field_tolerance [100] pageNoSalary c7Page
      [112] [99] [97] [] []).1 rfl rfl rfl rfl
  · exact (claim7_optional_field_tolerance [100] pageNoSalary c7Page
      [] [] [] [] []).2.2.2 rfl
